import Mathlib

/-!
Shallow embedding of the ERC-4626 rescue bot (rescue-bot.js and its drafts
src/unnamed/part_001 .. part_005).  JavaScript Numbers are modelled as exact
rationals, bigints as integers.  Fallible RPC queries are modelled as Option
values (none = the awaited call threw); per-attempt network behaviour is an
explicit environment record.
-/

namespace RescueBot

/-! ## Fee oracle (rescue-bot.js currentGasPriceOrFallback, part_001
getSafeGasPrice, part_003 getSafeGas) -/

/-- Result object of provider.getFeeData(); fields may be absent (null). -/
structure FeeData where
  maxFeePerGas : Option Int
  feeGasPrice : Option Int
deriving DecidableEq

/-- One oracle consultation: outcome of the two provider queries.
none on the outer options means the awaited query threw. -/
structure FeeQueryEnv where
  feeData : Option FeeData
  getGasPrice : Option Int
deriving DecidableEq

/-- BigInt(Math.floor(preferredGwei * 1e9)) : gwei to wei, floored. -/
def gweiToWei (g : ℚ) : Int := Int.floor (g * 1000000000)

/-- JS BigInt(x) applied to a Number x: defined exactly when x is an
integer, yielding that integer; on a non-integral x it throws a
RangeError, modelled as none. -/
def jsBigInt (q : ℚ) : Option Int :=
  if q = ((Int.floor q : ℤ) : ℚ) then some (Int.floor q) else none

/-- Second half of the fallback chain: provider.getGasPrice() if it yields
a truthy value, else the preferred bid converted to wei.  A returned 0n is
falsy in JS and falls through, exactly as a thrown query does. -/
def legacyOrPreferred (env : FeeQueryEnv) (preferredGwei : ℚ) : Int :=
  match env.getGasPrice with
  | some gp => if gp ≠ 0 then gp else gweiToWei preferredGwei
  | none => gweiToWei preferredGwei

/-- rescue-bot.js lines 88-102.  Try getFeeData().maxFeePerGas (truthy),
then getGasPrice() (truthy), then the caller's preferred gwei floored to
wei.  Total by construction: it never raises. -/
def currentGasPriceOrFallback (env : FeeQueryEnv) (preferredGwei : ℚ) : Int :=
  match env.feeData with
  | some fd =>
      match fd.maxFeePerGas with
      | some f => if f ≠ 0 then f else legacyOrPreferred env preferredGwei
      | none => legacyOrPreferred env preferredGwei
  | none => legacyOrPreferred env preferredGwei

/-- part_001 lines 74-86: identical body to currentGasPriceOrFallback. -/
def getSafeGasPrice : FeeQueryEnv → ℚ → Int := currentGasPriceOrFallback

/-- Second half of part_003's chain: getGasPrice() if truthy, else
BigInt(gweiPreferred * 1e9) with no Math.floor, which throws (none) when
the product is not an integer. -/
def getSafeGasLegacy (env : FeeQueryEnv) (gweiPreferred : ℚ) : Option Int :=
  match env.getGasPrice with
  | some gp => if gp ≠ 0 then some gp else jsBigInt (gweiPreferred * 1000000000)
  | none => jsBigInt (gweiPreferred * 1000000000)

/-- part_003 lines 105-117: unlike currentGasPriceOrFallback this reads
feeData.gasPrice -- the legacy single fee price as reported by
getFeeData() -- and never the dynamic maxFeePerGas estimate; its final
fallback is the unfloored BigInt(gweiPreferred * 1e9), so the function is
partial: none models the thrown RangeError. -/
def getSafeGas (env : FeeQueryEnv) (gweiPreferred : ℚ) : Option Int :=
  match env.feeData with
  | some fd =>
      match fd.feeGasPrice with
      | some g => if g ≠ 0 then some g else getSafeGasLegacy env gweiPreferred
      | none => getSafeGasLegacy env gweiPreferred
  | none => getSafeGasLegacy env gweiPreferred

/-! ## Rescue orchestrator (rescue-bot.js lines 157-176, part_001 324-342) -/

/-- The two module-level mutable variables guarding admission. -/
structure OrchState where
  rescueInProgress : Bool
  lastTriggerReason : Option String
deriving DecidableEq

/-- Observable events at the orchestrator: a call to
triggerRescueAttempt(reason), or the finally-block of an engine run. -/
inductive OrchEvent
  | trigger (reason : String)
  | engineDone
deriving DecidableEq

/-- One step of triggerRescueAttempt / its finally block.  The Nat is the
number of engine runs started by the step. -/
def orchStep (s : OrchState) : OrchEvent → OrchState × Nat
  | OrchEvent.trigger r =>
      if s.rescueInProgress then
        ({ s with lastTriggerReason := some r }, 0)
      else
        ({ rescueInProgress := true, lastTriggerReason := some r }, 1)
  | OrchEvent.engineDone => ({ s with rescueInProgress := false }, 0)

/-- Run a sequence of orchestrator events, totalling engine starts. -/
def orchRun (s : OrchState) : List OrchEvent → OrchState × Nat
  | [] => (s, 0)
  | e :: es =>
      let p := orchStep s e
      let q := orchRun p.1 es
      (q.1, p.2 + q.2)

/-! ## Redeem attempt engine (part_001 attemptRedeemRepeated lines 134-212,
part_003 attemptRedeemLoop lines 164-226) -/

/-- Outcome of one on-chain submission attempt: the receipt confirms with
status 1n, confirms with another status, or sendTransaction / wait throws. -/
inductive SubmitOutcome
  | confirmedSuccess
  | confirmedFailure
  | transportError
deriving DecidableEq

/-- Per-attempt network behaviour: the gas estimate (none = estimateGas
threw), the fee-oracle queries, and the submission outcome. -/
structure AttemptEnv where
  estimateGas : Option Nat
  fee : FeeQueryEnv
  submit : SubmitOutcome
deriving DecidableEq

/-- The configuration values read from the environment at startup. -/
structure Config where
  dryRun : Bool
  maxRetries : Nat
  gasStart : ℚ
  gasCap : ℚ
  retryBaseMs : ℚ
deriving DecidableEq

/-- How a run of the retry loop ended. -/
inductive LoopResult
  | succeeded
  | exhausted
  | dryRunStop
deriving DecidableEq

/-- Observable trace of one retry-loop run: submissions issued, dry-run log
lines, the clamped fee bid and gas limit prepared for each attempt, the
backoff sleeps performed, and how the loop ended. -/
structure LoopTrace where
  submissions : Nat
  dryRunLogs : Nat
  feeBids : List Int
  gasLimits : List Int
  sleeps : List ℚ
  result : LoopResult
deriving DecidableEq

/-- JS Math.round for the nonnegative values arising here: half away from
zero, i.e. floor(x + 1/2). -/
def jsRound (q : ℚ) : Int := Int.floor (q + 1 / 2)

/-- gasLimit of part_001: BigInt(Math.floor(Number(est) * 1.25)), fallback
600000n when estimateGas threw. -/
def gasLimitOf (est : Option Nat) : Int :=
  match est with
  | some e => Int.floor ((e : ℚ) * (5 / 4))
  | none => 600000

/-- cap = BigInt(Math.floor(gasCap * 1e9)); if (gasPrice > cap) gasPrice = cap. -/
def clampCap (cap : Int) (p : Int) : Int := if p > cap then cap else p

/-- Loop body of part_001 attemptRedeemRepeated, lines 139-209, as a
recursion on the remaining iterations of while (attempt < maxRetries).
envs is indexed by the 1-based attempt counter. -/
def attemptRedeemRepeatedGo (cfg : Config) (envs : Nat → AttemptEnv) :
    Nat → Nat → ℚ → LoopTrace
  | 0, _, _ => ⟨0, 0, [], [], [], LoopResult.exhausted⟩
  | fuel + 1, attempt, gasGwei =>
      let attempt1 := attempt + 1
      let env := envs attempt1
      let gasLimit := gasLimitOf env.estimateGas
      let gasPrice := clampCap (Int.floor (cfg.gasCap * 1000000000))
        (getSafeGasPrice env.fee gasGwei)
      if cfg.dryRun then
        ⟨0, 1, [gasPrice], [gasLimit], [], LoopResult.dryRunStop⟩
      else
        match env.submit with
        | SubmitOutcome.confirmedSuccess =>
            ⟨1, 0, [gasPrice], [gasLimit], [], LoopResult.succeeded⟩
        | _ =>
            let delay := cfg.retryBaseMs * (9 / 5 : ℚ) ^ attempt1
            let g2 := min cfg.gasCap ((jsRound (gasGwei * (3 / 2)) : ℚ))
            let rest := attemptRedeemRepeatedGo cfg envs fuel attempt1 g2
            ⟨1 + rest.submissions, rest.dryRunLogs, gasPrice :: rest.feeBids,
              gasLimit :: rest.gasLimits, delay :: rest.sleeps, rest.result⟩

/-- part_001 lines 134-212: attempt = 0, gasGwei = gasStart, then the loop. -/
def attemptRedeemRepeated (cfg : Config) (envs : Nat → AttemptEnv) : LoopTrace :=
  attemptRedeemRepeatedGo cfg envs cfg.maxRetries 0 cfg.gasStart

/-- gasLimit of part_003: est * 2n, fallback 700000n. -/
def gasLimitDoubled (est : Option Nat) : Int :=
  match est with
  | some e => (e : Int) * 2
  | none => 700000

/-- Loop body of part_003 attemptRedeemLoop, lines 169-225: same shape as
part_001 with sleep factor 1.7, gas bump factor 1.4, doubled gas limit,
the getSafeGas oracle and the unfloored cap BigInt(gasCap * 1e9).  When
getSafeGas or the cap conversion throws (none), the iteration's try block
aborts before the dry-run check and before any submission; the catch logs
the error and the loop proceeds to the backoff sleep and gas bump. -/
def attemptRedeemLoopGo (cfg : Config) (envs : Nat → AttemptEnv) :
    Nat → Nat → ℚ → LoopTrace
  | 0, _, _ => ⟨0, 0, [], [], [], LoopResult.exhausted⟩
  | fuel + 1, attempt, gasGwei =>
      let attempt1 := attempt + 1
      let env := envs attempt1
      let gasLimit := gasLimitDoubled env.estimateGas
      match getSafeGas env.fee gasGwei, jsBigInt (cfg.gasCap * 1000000000) with
      | some gp, some cap =>
          let gasPrice := clampCap cap gp
          if cfg.dryRun then
            ⟨0, 1, [gasPrice], [gasLimit], [], LoopResult.dryRunStop⟩
          else
            match env.submit with
            | SubmitOutcome.confirmedSuccess =>
                ⟨1, 0, [gasPrice], [gasLimit], [], LoopResult.succeeded⟩
            | _ =>
                let delay := cfg.retryBaseMs * (17 / 10 : ℚ) ^ attempt1
                let g2 := min cfg.gasCap ((jsRound (gasGwei * (7 / 5)) : ℚ))
                let rest := attemptRedeemLoopGo cfg envs fuel attempt1 g2
                ⟨1 + rest.submissions, rest.dryRunLogs, gasPrice :: rest.feeBids,
                  gasLimit :: rest.gasLimits, delay :: rest.sleeps, rest.result⟩
      | _, _ =>
          let delay := cfg.retryBaseMs * (17 / 10 : ℚ) ^ attempt1
          let g2 := min cfg.gasCap ((jsRound (gasGwei * (7 / 5)) : ℚ))
          let rest := attemptRedeemLoopGo cfg envs fuel attempt1 g2
          ⟨rest.submissions, rest.dryRunLogs, rest.feeBids,
            gasLimit :: rest.gasLimits, delay :: rest.sleeps, rest.result⟩

/-- part_003 lines 164-226. -/
def attemptRedeemLoop (cfg : Config) (envs : Nat → AttemptEnv) : LoopTrace :=
  attemptRedeemLoopGo cfg envs cfg.maxRetries 0 cfg.gasStart

/-! ## Session sizing (part_001 rescueLoop lines 112-132, part_003
rescueOnce lines 139-162) -/

/-- How a whole rescue session ended before or with the retry loop. -/
inductive RescueOutcome
  | readError
  | nothingToRescue
  | ran (t : LoopTrace)
deriving DecidableEq

/-- Submissions issued by a whole session. -/
def RescueOutcome.submissions : RescueOutcome → Nat
  | RescueOutcome.ran t => t.submissions
  | _ => 0

/-- part_001 rescueLoop: read balanceOf (none = the query threw); a zero
share balance returns before the retry loop. -/
def rescueLoop (cfg : Config) (balanceOf : Option Int)
    (envs : Nat → AttemptEnv) : RescueOutcome :=
  match balanceOf with
  | none => RescueOutcome.readError
  | some shares =>
      if shares = 0 then RescueOutcome.nothingToRescue
      else RescueOutcome.ran (attemptRedeemRepeated cfg envs)

/-- part_003 rescueOnce: read maxRedeem (none = the query threw); zero
redeemable liquidity returns before the retry loop. -/
def rescueOnce (cfg : Config) (maxRedeem : Option Int)
    (envs : Nat → AttemptEnv) : RescueOutcome :=
  match maxRedeem with
  | none => RescueOutcome.readError
  | some redeemable =>
      if redeemable = 0 then RescueOutcome.nothingToRescue
      else RescueOutcome.ran (attemptRedeemLoop cfg envs)

/-! ## Event watcher Transfer handlers (rescue-bot.js lines 143-147,
part_002 attachVaultEventsSafe lines 179-188, part_005 main lines 255-260) -/

/-- rescue-bot.js Transfer handler: logs and calls
triggerRescueAttempt for every Transfer event, with no destination check.
The returned value is the emitted trigger reason. -/
def onTransferRescueBot (_fromAddr _to : String) (_value : Int) : Option String :=
  some ("Transfer event")

/-- What the filtered handler does with a Transfer event. -/
inductive TransferAction
  | inbound (value : Int)
  | ignored
deriving DecidableEq

/-- JS String.prototype.toLowerCase restricted to the ASCII addresses the
bot compares, as the lowercased character list. -/
def lowerAscii (s : String) : List Char := s.data.map Char.toLower

/-- part_002 Transfer handler: only a truthy destination equal to the vault
address (case-insensitively) is handled as an inbound-liquidity signal;
every other Transfer is ignored. -/
def onTransferEventDelta (vaultAddress _fromAddr toAddr : String) (value : Int) :
    TransferAction :=
  if toAddr ≠ ("") ∧ lowerAscii toAddr = lowerAscii vaultAddress then
    TransferAction.inbound value
  else TransferAction.ignored

/-- part_005 main Transfer handler: destination check without the
truthiness guard. -/
def onTransferMain (vaultAddress _fromAddr toAddr : String) (value : Int) :
    TransferAction :=
  if lowerAscii toAddr = lowerAscii vaultAddress then TransferAction.inbound value
  else TransferAction.ignored

/-! ## Patrol loop (part_003 patrolLoop lines 231-254, part_004
startPatrolLoop lines 352-366) -/

/-- What one patrol iteration did before its sleep. -/
inductive PatrolStep
  | triggered (redeemable : Int)
  | quiet
  | caughtError
deriving DecidableEq

/-- Body of one patrol iteration: query maxRedeem (Except.error = the query
threw); a positive result emits a patrol trigger; an error is caught and
logged inside the iteration. -/
def patrolIter (q : Except Unit Int) : PatrolStep :=
  match q with
  | Except.ok redeemable =>
      if redeemable > 0 then PatrolStep.triggered redeemable
      else PatrolStep.quiet
  | Except.error _ => PatrolStep.caughtError

/-- part_003 patrolLoop over a finite prefix of query outcomes: every
iteration runs its body and then sleeps the fixed patrol interval. -/
def patrolLoop (patrolMs : ℚ) : List (Except Unit Int) → List (PatrolStep × ℚ)
  | [] => []
  | q :: qs => (patrolIter q, patrolMs) :: patrolLoop patrolMs qs

/-! ## Helper lemmas about the retry loop -/

lemma go_allFail (cfg : Config) (envs : Nat → AttemptEnv)
    (hdry : cfg.dryRun = false)
    (hfail : ∀ k, (envs k).submit ≠ SubmitOutcome.confirmedSuccess)
    (fuel a : Nat) (g : ℚ) :
    (attemptRedeemRepeatedGo cfg envs fuel a g).submissions = fuel ∧
    (attemptRedeemRepeatedGo cfg envs fuel a g).sleeps.length = fuel ∧
    (attemptRedeemRepeatedGo cfg envs fuel a g).result = LoopResult.exhausted := by
  induction fuel generalizing a g with
  | zero => simp [attemptRedeemRepeatedGo]
  | succ n ih =>
      simp only [attemptRedeemRepeatedGo, hdry, Bool.false_eq_true, if_false]
      cases hs : (envs (a + 1)).submit with
      | confirmedSuccess => exact absurd hs (hfail (a + 1))
      | confirmedFailure =>
          obtain ⟨h1, h2, h3⟩ := ih (a + 1)
            (min cfg.gasCap ((jsRound (g * (3 / 2)) : ℚ)))
          simp [h1, h2, h3, Nat.add_comm]
      | transportError =>
          obtain ⟨h1, h2, h3⟩ := ih (a + 1)
            (min cfg.gasCap ((jsRound (g * (3 / 2)) : ℚ)))
          simp [h1, h2, h3, Nat.add_comm]

lemma go_submissions_le (cfg : Config) (envs : Nat → AttemptEnv)
    (fuel a : Nat) (g : ℚ) :
    (attemptRedeemRepeatedGo cfg envs fuel a g).submissions ≤ fuel := by
  induction fuel generalizing a g with
  | zero => simp [attemptRedeemRepeatedGo]
  | succ n ih =>
      simp only [attemptRedeemRepeatedGo]
      by_cases hd : cfg.dryRun
      · simp [hd]
      · simp only [hd, if_false]
        cases (envs (a + 1)).submit with
        | confirmedSuccess => simp
        | confirmedFailure =>
            have := ih (a + 1) (min cfg.gasCap ((jsRound (g * (3 / 2)) : ℚ)))
            simp; omega
        | transportError =>
            have := ih (a + 1) (min cfg.gasCap ((jsRound (g * (3 / 2)) : ℚ)))
            simp; omega

lemma go_firstSuccess (cfg : Config) (envs : Nat → AttemptEnv)
    (hdry : cfg.dryRun = false) (k : Nat)
    (hsucc : (envs k).submit = SubmitOutcome.confirmedSuccess)
    (hfirst : ∀ j, 1 ≤ j → j < k → (envs j).submit ≠ SubmitOutcome.confirmedSuccess)
    (fuel a : Nat) (g : ℚ) (hak : a < k) (hka : k ≤ a + fuel) :
    (attemptRedeemRepeatedGo cfg envs fuel a g).result = LoopResult.succeeded ∧
    (attemptRedeemRepeatedGo cfg envs fuel a g).submissions = k - a ∧
    (attemptRedeemRepeatedGo cfg envs fuel a g).sleeps.length = k - a - 1 := by
  induction fuel generalizing a g with
  | zero => omega
  | succ n ih =>
      simp only [attemptRedeemRepeatedGo, hdry, Bool.false_eq_true, if_false]
      by_cases heq : a + 1 = k
      · subst heq
        rw [hsucc]
        refine ⟨rfl, ?_, ?_⟩ <;> simp
      · have hne := hfirst (a + 1) (by omega) (by omega)
        cases hs : (envs (a + 1)).submit with
        | confirmedSuccess => exact absurd hs hne
        | confirmedFailure =>
            obtain ⟨h1, h2, h3⟩ := ih (a + 1)
              (min cfg.gasCap ((jsRound (g * (3 / 2)) : ℚ))) (by omega) (by omega)
            simp [h1, h2, h3]; omega
        | transportError =>
            obtain ⟨h1, h2, h3⟩ := ih (a + 1)
              (min cfg.gasCap ((jsRound (g * (3 / 2)) : ℚ))) (by omega) (by omega)
            simp [h1, h2, h3]; omega

lemma go_succeeded_iff (cfg : Config) (envs : Nat → AttemptEnv)
    (hdry : cfg.dryRun = false) (fuel a : Nat) (g : ℚ) :
    (attemptRedeemRepeatedGo cfg envs fuel a g).result = LoopResult.succeeded ↔
      ∃ j, a < j ∧ j ≤ a + fuel ∧
        (envs j).submit = SubmitOutcome.confirmedSuccess := by
  induction fuel generalizing a g with
  | zero =>
      simp only [attemptRedeemRepeatedGo]
      constructor
      · intro h; exact absurd h (by simp)
      · rintro ⟨j, h1, h2, _⟩; omega
  | succ n ih =>
      simp only [attemptRedeemRepeatedGo, hdry, Bool.false_eq_true, if_false]
      cases hs : (envs (a + 1)).submit with
      | confirmedSuccess =>
          refine iff_of_true rfl ⟨a + 1, by omega, by omega, hs⟩
      | confirmedFailure =>
          rw [ih (a + 1) (min cfg.gasCap ((jsRound (g * (3 / 2)) : ℚ)))]
          constructor
          · rintro ⟨j, h1, h2, h3⟩; exact ⟨j, by omega, by omega, h3⟩
          · rintro ⟨j, h1, h2, h3⟩
            refine ⟨j, ?_, by omega, h3⟩
            rcases Nat.lt_or_ge (a + 1) j with h | h
            · exact h
            · exfalso
              have : j = a + 1 := by omega
              rw [this, hs] at h3; exact absurd h3 (by simp)
      | transportError =>
          rw [ih (a + 1) (min cfg.gasCap ((jsRound (g * (3 / 2)) : ℚ)))]
          constructor
          · rintro ⟨j, h1, h2, h3⟩; exact ⟨j, by omega, by omega, h3⟩
          · rintro ⟨j, h1, h2, h3⟩
            refine ⟨j, ?_, by omega, h3⟩
            rcases Nat.lt_or_ge (a + 1) j with h | h
            · exact h
            · exfalso
              have : j = a + 1 := by omega
              rw [this, hs] at h3; exact absurd h3 (by simp)

lemma clampCap_eq_min (cap p : Int) : clampCap cap p = min cap p := by
  simp only [clampCap, min_def]
  split_ifs <;> omega

lemma clampCap_le (cap p : Int) : clampCap cap p ≤ cap := by
  simp only [clampCap]
  split_ifs <;> omega

lemma clampCap_of_le (cap p : Int) (h : cap ≤ p) : clampCap cap p = cap := by
  simp only [clampCap]
  split_ifs <;> omega

lemma jsRound_bump_ge (g : ℚ) (hg : 1 ≤ g) : g ≤ (jsRound (g * (3 / 2)) : ℚ) := by
  have h1 : g * (3 / 2) + 1 / 2 - 1 < (jsRound (g * (3 / 2)) : ℚ) := by
    simp only [jsRound]
    exact Int.sub_one_lt_floor (g * (3 / 2) + 1 / 2)
  nlinarith

lemma gweiToWei_mono {g g' : ℚ} (h : g ≤ g') : gweiToWei g ≤ gweiToWei g' := by
  unfold gweiToWei
  exact Int.floor_le_floor (by nlinarith)

lemma fallbackBid_mono (cap : Int) {g g' : ℚ} (h : g ≤ g') :
    clampCap cap (gweiToWei g) ≤ clampCap cap (gweiToWei g') := by
  rw [clampCap_eq_min, clampCap_eq_min]
  exact min_le_min le_rfl (gweiToWei_mono h)

lemma getSafeGasPrice_fallback (g : ℚ) :
    getSafeGasPrice ⟨none, none⟩ g = gweiToWei g := rfl

/-- One escalation step never lowers the clamped fallback bid, as long as
the current seed is at least 1 gwei: either the seed grows, or it has been
cut down to the cap, where the clamped bid was already pinned. -/
lemma fallbackBid_step_mono (c g : ℚ) (hg : 1 ≤ g) :
    clampCap (Int.floor (c * 1000000000)) (gweiToWei g) ≤
      clampCap (Int.floor (c * 1000000000))
        (gweiToWei (min c ((jsRound (g * (3 / 2)) : ℚ)))) := by
  have key : g ≤ min c ((jsRound (g * (3 / 2)) : ℚ)) ∨
      (min c ((jsRound (g * (3 / 2)) : ℚ)) = c ∧ c ≤ g) := by
    rcases min_cases c ((jsRound (g * (3 / 2)) : ℚ)) with ⟨h1, h2⟩ | ⟨h1, h2⟩
    · rcases le_total g c with hc | hc
      · left; rw [h1]; exact hc
      · right; exact ⟨h1, hc⟩
    · left; rw [h1]; exact jsRound_bump_ge g hg
  rcases key with h | ⟨h1, h2⟩
  · exact fallbackBid_mono _ h
  · rw [h1]
    have hfl : Int.floor (c * 1000000000) ≤ gweiToWei g := gweiToWei_mono h2
    have hcc : gweiToWei c = Int.floor (c * 1000000000) := rfl
    rw [clampCap_of_le _ _ hfl, hcc, clampCap_of_le _ _ le_rfl]

/-- Every fee bid the part_001 loop prepares is clamped to the ceiling,
whatever the fee oracle returns. -/
lemma go_feeBids_le_cap (cfg : Config) (envs : Nat → AttemptEnv)
    (fuel a : Nat) (g : ℚ) :
    ∀ b ∈ (attemptRedeemRepeatedGo cfg envs fuel a g).feeBids,
      b ≤ Int.floor (cfg.gasCap * 1000000000) := by
  induction fuel generalizing a g with
  | zero => simp [attemptRedeemRepeatedGo]
  | succ n ih =>
      simp only [attemptRedeemRepeatedGo]
      by_cases hd : cfg.dryRun
      · rw [if_pos hd]
        intro b hb
        simp at hb
        subst hb
        exact clampCap_le _ _
      · rw [if_neg hd]
        cases hs : (envs (a + 1)).submit with
        | confirmedSuccess =>
            intro b hb
            simp at hb
            subst hb
            exact clampCap_le _ _
        | confirmedFailure =>
            intro b hb
            simp only [List.mem_cons] at hb
            rcases hb with rfl | hb
            · exact clampCap_le _ _
            · exact ih (a + 1) (min cfg.gasCap ((jsRound (g * (3 / 2)) : ℚ))) b hb
        | transportError =>
            intro b hb
            simp only [List.mem_cons] at hb
            rcases hb with rfl | hb
            · exact clampCap_le _ _
            · exact ih (a + 1) (min cfg.gasCap ((jsRound (g * (3 / 2)) : ℚ))) b hb

/-- With the oracle in fallback and a cap of at least 1 gwei, a seed of at
least 1 gwei keeps the prepared fee bids non-decreasing and bounded below
by the current clamped bid. -/
lemma go_feeBids_chain (cfg : Config) (envs : Nat → AttemptEnv)
    (hfb : ∀ k, (envs k).fee = ⟨none, none⟩) (hcap : (1 : ℚ) ≤ cfg.gasCap)
    (fuel a : Nat) (g : ℚ) (hg1 : 1 ≤ g) :
    List.Chain' (· ≤ ·) ((attemptRedeemRepeatedGo cfg envs fuel a g).feeBids) ∧
    ∀ b ∈ (attemptRedeemRepeatedGo cfg envs fuel a g).feeBids,
      clampCap (Int.floor (cfg.gasCap * 1000000000)) (gweiToWei g) ≤ b := by
  induction fuel generalizing a g with
  | zero => simp [attemptRedeemRepeatedGo]
  | succ n ih =>
      have hfee : (envs (a + 1)).fee = ⟨none, none⟩ := hfb (a + 1)
      simp only [attemptRedeemRepeatedGo, hfee, getSafeGasPrice_fallback]
      by_cases hd : cfg.dryRun
      · rw [if_pos hd]
        refine ⟨by simp, ?_⟩
        intro b hb
        simp at hb
        subst hb
        exact le_refl _
      · rw [if_neg hd]
        cases hs : (envs (a + 1)).submit with
        | confirmedSuccess =>
            refine ⟨by simp, ?_⟩
            intro b hb
            simp at hb
            subst hb
            exact le_refl _
        | confirmedFailure =>
            have hg2b : (1 : ℚ) ≤ min cfg.gasCap ((jsRound (g * (3 / 2)) : ℚ)) :=
              le_min hcap (le_trans hg1 (jsRound_bump_ge g hg1))
            obtain ⟨hch, hbd⟩ := ih (a + 1)
              (min cfg.gasCap ((jsRound (g * (3 / 2)) : ℚ))) hg2b
            have hmono := fallbackBid_step_mono cfg.gasCap g hg1
            constructor
            · simp only [List.chain'_cons']
              refine ⟨?_, hch⟩
              intro y hy
              exact le_trans hmono (hbd y (List.mem_of_mem_head? hy))
            · intro b hb
              simp only [List.mem_cons] at hb
              rcases hb with rfl | hb
              · exact le_refl _
              · exact le_trans hmono (hbd b hb)
        | transportError =>
            have hg2b : (1 : ℚ) ≤ min cfg.gasCap ((jsRound (g * (3 / 2)) : ℚ)) :=
              le_min hcap (le_trans hg1 (jsRound_bump_ge g hg1))
            obtain ⟨hch, hbd⟩ := ih (a + 1)
              (min cfg.gasCap ((jsRound (g * (3 / 2)) : ℚ))) hg2b
            have hmono := fallbackBid_step_mono cfg.gasCap g hg1
            constructor
            · simp only [List.chain'_cons']
              refine ⟨?_, hch⟩
              intro y hy
              exact le_trans hmono (hbd y (List.mem_of_mem_head? hy))
            · intro b hb
              simp only [List.mem_cons] at hb
              rcases hb with rfl | hb
              · exact le_refl _
              · exact le_trans hmono (hbd b hb)

/-! ## Claim theorems -/

lemma orchRun_busy (rs : List String) : ∀ (s : OrchState),
    s.rescueInProgress = true →
    (orchRun s (rs.map OrchEvent.trigger ++ [OrchEvent.engineDone])).2 = 0 ∧
    (orchRun s (rs.map OrchEvent.trigger ++ [OrchEvent.engineDone])).1.rescueInProgress
      = false ∧
    (orchRun s (rs.map OrchEvent.trigger ++ [OrchEvent.engineDone])).1.lastTriggerReason
      = rs.foldl (fun _ r2 => some r2) s.lastTriggerReason := by
  induction rs with
  | nil =>
      intro s h
      simp [orchRun, orchStep]
  | cons r0 rs ih =>
      intro s h
      have step : orchStep s (OrchEvent.trigger r0)
          = ({ s with lastTriggerReason := some r0 }, 0) := by
        simp [orchStep, h]
      obtain ⟨i1, i2, i3⟩ := ih { s with lastTriggerReason := some r0 } h
      simp only [List.map_cons, List.cons_append, orchRun, step, List.foldl_cons]
      exact ⟨by simpa using i1, i2, i3⟩

/-- Claim C1: while a session is active, a call to triggerRescueAttempt
only overwrites the stored pending reason and starts no engine run; any
number of further trigger calls during the session start zero engine runs
and retain only the latest reason; when the engine run finishes, the
orchestrator becomes idle again without replaying the stored reason. -/
theorem triggerRescueAttempt_single_flight (s : OrchState) (r : String)
    (rs : List String) (h : s.rescueInProgress = true) :
    orchStep s (OrchEvent.trigger r) = ({ s with lastTriggerReason := some r }, 0) ∧
    (orchRun s (rs.map OrchEvent.trigger ++ [OrchEvent.engineDone])).2 = 0 ∧
    (orchRun s (rs.map OrchEvent.trigger ++ [OrchEvent.engineDone])).1.rescueInProgress
      = false ∧
    (orchRun s (rs.map OrchEvent.trigger ++ [OrchEvent.engineDone])).1.lastTriggerReason
      = rs.foldl (fun _ r2 => some r2) s.lastTriggerReason := by
  refine ⟨by simp [orchStep, h], ?_, ?_, ?_⟩ <;>
    obtain ⟨h1, h2, h3⟩ := orchRun_busy rs s h <;> assumption

/-- Witness for C1 at a concrete busy state and trigger burst. -/
theorem triggerRescueAttempt_single_flight_witness :
    orchStep ⟨true, some ("startup")⟩ (OrchEvent.trigger ("Deposit"))
      = (⟨true, some ("Deposit")⟩, 0) ∧
    (orchRun ⟨true, some ("startup")⟩
      ([("Transfer"), ("Withdraw")].map OrchEvent.trigger
        ++ [OrchEvent.engineDone])).2 = 0 ∧
    (orchRun ⟨true, some ("startup")⟩
      ([("Transfer"), ("Withdraw")].map OrchEvent.trigger
        ++ [OrchEvent.engineDone])).1.rescueInProgress = false ∧
    (orchRun ⟨true, some ("startup")⟩
      ([("Transfer"), ("Withdraw")].map OrchEvent.trigger
        ++ [OrchEvent.engineDone])).1.lastTriggerReason = some ("Withdraw") := by
  simpa using triggerRescueAttempt_single_flight ⟨true, some ("startup")⟩
    ("Deposit") [("Transfer"), ("Withdraw")] rfl

/-- Claim C2: with dry-run off, a session in which every submission
confirm-fails or errors issues exactly maxRetries submission attempts and
ends Exhausted; no environment ever produces more than maxRetries
submissions. -/
theorem attemptRedeemRepeated_retry_ceiling (cfg : Config)
    (envs : Nat → AttemptEnv) (hdry : cfg.dryRun = false)
    (hfail : ∀ k, (envs k).submit ≠ SubmitOutcome.confirmedSuccess) :
    (attemptRedeemRepeated cfg envs).submissions = cfg.maxRetries ∧
    (attemptRedeemRepeated cfg envs).result = LoopResult.exhausted ∧
    ∀ envs2 : Nat → AttemptEnv,
      (attemptRedeemRepeated cfg envs2).submissions ≤ cfg.maxRetries := by
  obtain ⟨h1, _, h3⟩ := go_allFail cfg envs hdry hfail cfg.maxRetries 0 cfg.gasStart
  exact ⟨h1, h3, fun envs2 => go_submissions_le cfg envs2 cfg.maxRetries 0 cfg.gasStart⟩

/-- Witness for C2: maxRetries = 3, every attempt confirm-fails. -/
theorem attemptRedeemRepeated_retry_ceiling_witness :
    (attemptRedeemRepeated ⟨false, 3, 5, 80, 15000⟩
      (fun _ => ⟨none, ⟨none, none⟩, SubmitOutcome.confirmedFailure⟩)).submissions = 3 ∧
    (attemptRedeemRepeated ⟨false, 3, 5, 80, 15000⟩
      (fun _ => ⟨none, ⟨none, none⟩, SubmitOutcome.confirmedFailure⟩)).result
      = LoopResult.exhausted := by
  have h := attemptRedeemRepeated_retry_ceiling ⟨false, 3, 5, 80, 15000⟩
    (fun _ => ⟨none, ⟨none, none⟩, SubmitOutcome.confirmedFailure⟩) rfl
    (fun k => by simp)
  exact ⟨h.1, h.2.1⟩

/-- Claim C3: with dry-run off, if attempt k is the first whose submission
confirms with success status and k is within the retry budget, the session
ends Succeeded after exactly k submissions with no further sleep; and for
every environment, the session succeeds exactly when some attempt within
the budget confirms success -- success is decided only by the confirmed
receipt status, never by a post-condition balance. -/
theorem attemptRedeemRepeated_success_detection (cfg : Config)
    (envs : Nat → AttemptEnv) (k : Nat) (hdry : cfg.dryRun = false)
    (hk1 : 1 ≤ k) (hkN : k ≤ cfg.maxRetries)
    (hsucc : (envs k).submit = SubmitOutcome.confirmedSuccess)
    (hfirst : ∀ j, 1 ≤ j → j < k →
      (envs j).submit ≠ SubmitOutcome.confirmedSuccess) :
    (attemptRedeemRepeated cfg envs).result = LoopResult.succeeded ∧
    (attemptRedeemRepeated cfg envs).submissions = k ∧
    (attemptRedeemRepeated cfg envs).sleeps.length = k - 1 ∧
    ∀ envs2 : Nat → AttemptEnv,
      ((attemptRedeemRepeated cfg envs2).result = LoopResult.succeeded ↔
        ∃ j, 1 ≤ j ∧ j ≤ cfg.maxRetries ∧
          (envs2 j).submit = SubmitOutcome.confirmedSuccess) := by
  obtain ⟨h1, h2, h3⟩ := go_firstSuccess cfg envs hdry k hsucc hfirst
    cfg.maxRetries 0 cfg.gasStart (by omega) (by omega)
  refine ⟨h1, by simpa using h2, by simpa using h3, ?_⟩
  intro envs2
  rw [attemptRedeemRepeated, go_succeeded_iff cfg envs2 hdry]
  constructor
  · rintro ⟨j, hj1, hj2, hj3⟩; exact ⟨j, by omega, by omega, hj3⟩
  · rintro ⟨j, hj1, hj2, hj3⟩; exact ⟨j, by omega, by omega, hj3⟩

/-- Witness for C3: maxRetries = 3, attempt 1 confirm-fails and attempt 2
confirms success. -/
theorem attemptRedeemRepeated_success_detection_witness :
    (attemptRedeemRepeated ⟨false, 3, 5, 80, 15000⟩
      (fun j => if j = 2 then ⟨none, ⟨none, none⟩, SubmitOutcome.confirmedSuccess⟩
        else ⟨none, ⟨none, none⟩, SubmitOutcome.confirmedFailure⟩)).result
      = LoopResult.succeeded ∧
    (attemptRedeemRepeated ⟨false, 3, 5, 80, 15000⟩
      (fun j => if j = 2 then ⟨none, ⟨none, none⟩, SubmitOutcome.confirmedSuccess⟩
        else ⟨none, ⟨none, none⟩, SubmitOutcome.confirmedFailure⟩)).submissions = 2 ∧
    (attemptRedeemRepeated ⟨false, 3, 5, 80, 15000⟩
      (fun j => if j = 2 then ⟨none, ⟨none, none⟩, SubmitOutcome.confirmedSuccess⟩
        else ⟨none, ⟨none, none⟩, SubmitOutcome.confirmedFailure⟩)).sleeps.length = 1 := by
  have h := attemptRedeemRepeated_success_detection ⟨false, 3, 5, 80, 15000⟩
    (fun j => if j = 2 then ⟨none, ⟨none, none⟩, SubmitOutcome.confirmedSuccess⟩
      else ⟨none, ⟨none, none⟩, SubmitOutcome.confirmedFailure⟩) 2 rfl
    (by decide) (by decide) (by simp)
    (by intro j h1 h2
        have : j = 1 := by omega
        subst this
        simp)
  exact ⟨h.1, h.2.1, h.2.2.1⟩


/-- Counterexample for C4: (i) with start 5 gwei, cap 80 gwei and the
oracle in fallback, the bid used for the second attempt is 8 gwei (the
code iterates Math.round(g * 1.5)), not the claimed
min(ceiling, startBid * 1.5) = 7.5 gwei; (ii) a sub-gwei start of 0.1 gwei
gives the decreasing bid sequence 1e8, 0, refuting monotonicity; (iii) a
sub-gwei cap of 0.2 gwei with start 2 gwei gives the decreasing sequence
2e8, 2e8, 0; (iv) with a live oracle whose dynamic estimate falls between
attempts (50 wei then 10 wei) the bids decrease even without any rounding,
so monotonicity can only hold of the fallback-derived bids. -/
theorem fee_escalation_counterexample :
    (attemptRedeemRepeated ⟨false, 2, 5, 80, 15000⟩
      (fun _ => ⟨none, ⟨none, none⟩, SubmitOutcome.confirmedFailure⟩)).feeBids
      = [5000000000, 8000000000] ∧
    ¬ ((8000000000 : ℚ)
        = min ((80 : ℚ) * 1000000000) ((5 : ℚ) * 1000000000 * (3 / 2))) ∧
    (attemptRedeemRepeated ⟨false, 2, 1 / 10, 80, 15000⟩
      (fun _ => ⟨none, ⟨none, none⟩, SubmitOutcome.confirmedFailure⟩)).feeBids
      = [100000000, 0] ∧
    (attemptRedeemRepeated ⟨false, 3, 2, 1 / 5, 15000⟩
      (fun _ => ⟨none, ⟨none, none⟩, SubmitOutcome.confirmedFailure⟩)).feeBids
      = [200000000, 200000000, 0] ∧
    (attemptRedeemRepeated ⟨false, 2, 5, 80, 15000⟩
      (fun k => if k = 1
        then ⟨none, ⟨some ⟨some 50, none⟩, none⟩, SubmitOutcome.confirmedFailure⟩
        else ⟨none, ⟨some ⟨some 10, none⟩, none⟩, SubmitOutcome.confirmedFailure⟩)).feeBids
      = [50, 10] ∧
    ¬ ((100000000 : ℤ) ≤ 0) ∧ ¬ ((200000000 : ℤ) ≤ 0) ∧ ¬ ((50 : ℤ) ≤ 10) := by
  refine ⟨?_, by norm_num [min_def], ?_, ?_, ?_, by norm_num, by norm_num,
    by norm_num⟩ <;>
    norm_num [attemptRedeemRepeated, attemptRedeemRepeatedGo, clampCap,
      getSafeGasPrice, currentGasPriceOrFallback, legacyOrPreferred, gweiToWei,
      jsRound, gasLimitOf, min_def]

/-- Claim C4 (amended): the escalated seed follows the iterated update
g := min(cap, Math.round(g * 1.5)) rather than the closed form
min(ceiling, startBid * 1.5^k).  Whatever the fee oracle returns -- live
estimate, legacy price or fallback -- every prepared bid is clamped to the
ceiling floor(gasCap * 1e9) before submission.  With the oracle in
fallback, the bids are additionally non-decreasing provided the start bid
and the cap are each at least 1 gwei (Math.round collapses sub-gwei seeds
toward 0, and a live oracle can lower its quote between attempts). -/
theorem attemptRedeemRepeated_fee_escalation (cfg : Config)
    (envs : Nat → AttemptEnv)
    (hfb : ∀ k, (envs k).fee = ⟨none, none⟩)
    (h1 : 1 ≤ cfg.gasStart) (hcap : (1 : ℚ) ≤ cfg.gasCap) :
    List.Chain' (· ≤ ·) ((attemptRedeemRepeated cfg envs).feeBids) ∧
    ∀ envs2 : Nat → AttemptEnv,
      ∀ b ∈ (attemptRedeemRepeated cfg envs2).feeBids,
        b ≤ Int.floor (cfg.gasCap * 1000000000) := by
  obtain ⟨hc, _⟩ := go_feeBids_chain cfg envs hfb hcap cfg.maxRetries 0
    cfg.gasStart h1
  exact ⟨hc, fun envs2 b hb =>
    go_feeBids_le_cap cfg envs2 cfg.maxRetries 0 cfg.gasStart b hb⟩

/-- Witness for the amended C4: the fallback session's bids form a chain,
and even a session whose oracle quotes 999999999999 wei (far above the 80
gwei ceiling) never bids above 80000000000 wei, because of the clamp. -/
theorem attemptRedeemRepeated_fee_escalation_witness :
    List.Chain' (· ≤ ·) ((attemptRedeemRepeated ⟨false, 3, 5, 80, 15000⟩
      (fun _ => ⟨none, ⟨none, none⟩, SubmitOutcome.confirmedFailure⟩)).feeBids) ∧
    ∀ b ∈ (attemptRedeemRepeated ⟨false, 3, 5, 80, 15000⟩
      (fun _ => ⟨none, ⟨some ⟨some 999999999999, none⟩, none⟩,
        SubmitOutcome.confirmedFailure⟩)).feeBids,
      b ≤ 80000000000 := by
  have h := attemptRedeemRepeated_fee_escalation ⟨false, 3, 5, 80, 15000⟩
    (fun _ => ⟨none, ⟨none, none⟩, SubmitOutcome.confirmedFailure⟩)
    (fun k => rfl) (by norm_num) (by norm_num)
  refine ⟨h.1, fun b hb => le_trans
    (h.2 (fun _ => ⟨none, ⟨some ⟨some 999999999999, none⟩, none⟩,
      SubmitOutcome.confirmedFailure⟩) b hb) ?_⟩
  norm_num

/-- Counterexample for C5: with maxRetries = 1 and the single submission
confirm-failing, the session does end Exhausted after exactly one attempt,
but a backoff sleep IS invoked before the loop exits, contrary to the
claim that no sleep/backoff happens after the final attempt. -/
theorem no_final_backoff_counterexample :
    (attemptRedeemRepeated ⟨false, 1, 5, 80, 15000⟩
      (fun _ => ⟨none, ⟨none, none⟩, SubmitOutcome.confirmedFailure⟩)).submissions = 1 ∧
    (attemptRedeemRepeated ⟨false, 1, 5, 80, 15000⟩
      (fun _ => ⟨none, ⟨none, none⟩, SubmitOutcome.confirmedFailure⟩)).result
      = LoopResult.exhausted ∧
    (attemptRedeemRepeated ⟨false, 1, 5, 80, 15000⟩
      (fun _ => ⟨none, ⟨none, none⟩, SubmitOutcome.confirmedFailure⟩)).sleeps.length = 1 ∧
    (attemptRedeemRepeated ⟨false, 1, 5, 80, 15000⟩
      (fun _ => ⟨none, ⟨none, none⟩, SubmitOutcome.confirmedFailure⟩)).sleeps ≠ [] := by
  refine ⟨?_, ?_, ?_, ?_⟩ <;>
    norm_num [attemptRedeemRepeated, attemptRedeemRepeatedGo, clampCap,
      getSafeGasPrice, currentGasPriceOrFallback, legacyOrPreferred, gweiToWei,
      jsRound, gasLimitOf, min_def]

/-- Claim C5 (amended): an all-fail session with dry-run off performs a
backoff sleep after every failed attempt, including the final one, and
only then ends Exhausted: exactly maxRetries submissions and exactly
maxRetries sleeps. -/
theorem attemptRedeemRepeated_final_backoff (cfg : Config)
    (envs : Nat → AttemptEnv) (hdry : cfg.dryRun = false)
    (hfail : ∀ k, (envs k).submit ≠ SubmitOutcome.confirmedSuccess) :
    (attemptRedeemRepeated cfg envs).sleeps.length = cfg.maxRetries ∧
    (attemptRedeemRepeated cfg envs).submissions = cfg.maxRetries ∧
    (attemptRedeemRepeated cfg envs).result = LoopResult.exhausted := by
  obtain ⟨h1, h2, h3⟩ := go_allFail cfg envs hdry hfail cfg.maxRetries 0 cfg.gasStart
  exact ⟨h2, h1, h3⟩

/-- Witness for the amended C5 with maxRetries = 2. -/
theorem attemptRedeemRepeated_final_backoff_witness :
    (attemptRedeemRepeated ⟨false, 2, 5, 80, 15000⟩
      (fun _ => ⟨none, ⟨none, none⟩, SubmitOutcome.confirmedFailure⟩)).sleeps.length = 2 ∧
    (attemptRedeemRepeated ⟨false, 2, 5, 80, 15000⟩
      (fun _ => ⟨none, ⟨none, none⟩, SubmitOutcome.confirmedFailure⟩)).submissions = 2 ∧
    (attemptRedeemRepeated ⟨false, 2, 5, 80, 15000⟩
      (fun _ => ⟨none, ⟨none, none⟩, SubmitOutcome.confirmedFailure⟩)).result
      = LoopResult.exhausted :=
  attemptRedeemRepeated_final_backoff ⟨false, 2, 5, 80, 15000⟩
    (fun _ => ⟨none, ⟨none, none⟩, SubmitOutcome.confirmedFailure⟩) rfl
    (fun k => by simp)

/-- Claim C6: a dry-run session over a non-zero sized amount reaches the
retry loop, issues no submission, produces exactly one dry-run log line,
performs no backoff sleep, and stops after the first iteration. -/
theorem attemptRedeemRepeated_dry_run (cfg : Config) (b : Int)
    (envs : Nat → AttemptEnv) (hdry : cfg.dryRun = true)
    (hN : 1 ≤ cfg.maxRetries) (hb : b ≠ 0) :
    rescueLoop cfg (some b) envs
      = RescueOutcome.ran (attemptRedeemRepeated cfg envs) ∧
    (attemptRedeemRepeated cfg envs).submissions = 0 ∧
    (attemptRedeemRepeated cfg envs).dryRunLogs = 1 ∧
    (attemptRedeemRepeated cfg envs).sleeps = [] ∧
    (attemptRedeemRepeated cfg envs).result = LoopResult.dryRunStop := by
  refine ⟨by simp [rescueLoop, hb], ?_, ?_, ?_, ?_⟩ <;>
  · obtain ⟨n, hn⟩ : ∃ n, cfg.maxRetries = n + 1 := ⟨cfg.maxRetries - 1, by omega⟩
    rw [attemptRedeemRepeated, hn]
    simp [attemptRedeemRepeatedGo, hdry]

/-- Witness for C6 at a concrete dry-run config and 500 shares. -/
theorem attemptRedeemRepeated_dry_run_witness :
    rescueLoop ⟨true, 6, 5, 80, 10000⟩ (some 500)
      (fun _ => ⟨none, ⟨none, none⟩, SubmitOutcome.confirmedFailure⟩)
      = RescueOutcome.ran (attemptRedeemRepeated ⟨true, 6, 5, 80, 10000⟩
        (fun _ => ⟨none, ⟨none, none⟩, SubmitOutcome.confirmedFailure⟩)) ∧
    (attemptRedeemRepeated ⟨true, 6, 5, 80, 10000⟩
      (fun _ => ⟨none, ⟨none, none⟩, SubmitOutcome.confirmedFailure⟩)).submissions = 0 ∧
    (attemptRedeemRepeated ⟨true, 6, 5, 80, 10000⟩
      (fun _ => ⟨none, ⟨none, none⟩, SubmitOutcome.confirmedFailure⟩)).dryRunLogs = 1 ∧
    (attemptRedeemRepeated ⟨true, 6, 5, 80, 10000⟩
      (fun _ => ⟨none, ⟨none, none⟩, SubmitOutcome.confirmedFailure⟩)).sleeps = [] ∧
    (attemptRedeemRepeated ⟨true, 6, 5, 80, 10000⟩
      (fun _ => ⟨none, ⟨none, none⟩, SubmitOutcome.confirmedFailure⟩)).result
      = LoopResult.dryRunStop :=
  attemptRedeemRepeated_dry_run ⟨true, 6, 5, 80, 10000⟩ 500
    (fun _ => ⟨none, ⟨none, none⟩, SubmitOutcome.confirmedFailure⟩) rfl
    (by decide) (by decide)

/-- Claim C7: a sizing result of zero shares (zero balance in part_001's
rescueLoop, zero maxRedeem in part_003's rescueOnce) ends the session with
zero submission attempts, as nothing-to-rescue rather than a read error,
and the retry loop is never entered. -/
theorem rescue_zero_sizing (cfg : Config) (envs : Nat → AttemptEnv) :
    rescueLoop cfg (some 0) envs = RescueOutcome.nothingToRescue ∧
    (rescueLoop cfg (some 0) envs).submissions = 0 ∧
    rescueLoop cfg (some 0) envs ≠ RescueOutcome.readError ∧
    rescueOnce cfg (some 0) envs = RescueOutcome.nothingToRescue ∧
    (rescueOnce cfg (some 0) envs).submissions = 0 := by
  simp [rescueLoop, rescueOnce, RescueOutcome.submissions]

/-- Counterexample for C8: the cited part_003 getSafeGas does not follow
the claimed resolution order and is not total: with a truthy dynamic
estimate of 7 available it ignores it and returns the legacy getGasPrice
value 11 (where currentGasPriceOrFallback returns 7), and with both
queries failed its unfloored fallback BigInt((1/3) * 1e9) throws (none)
instead of returning a usable amount. -/
theorem getSafeGas_counterexample :
    getSafeGas ⟨some ⟨some 7, none⟩, some 11⟩ 5 = some 11 ∧
    (11 : ℤ) ≠ 7 ∧
    currentGasPriceOrFallback ⟨some ⟨some 7, none⟩, some 11⟩ 5 = 7 ∧
    getSafeGas ⟨none, none⟩ (1 / 3) = none := by
  refine ⟨by decide, by decide, by decide, ?_⟩
  norm_num [getSafeGas, getSafeGasLegacy, jsBigInt]

/-- Claim C8 (amended): the rescue-bot.js oracle currentGasPriceOrFallback
(identical in part_001) is total and resolves, in order, the dynamic fee
estimate when truthy, then the legacy gas price when truthy, and when
both queries fail (or return falsy values) it yields exactly the
preferred gwei bid floored to integer wei.  The part_003 variant
getSafeGas instead reads the legacy gasPrice field of getFeeData -- never
the dynamic estimate -- then getGasPrice, and its unfloored fallback
BigInt(gweiPreferred * 1e9) yields the integer wei amount only when the
product is integral and throws otherwise. -/
theorem fee_oracle_resolution (g : ℚ) (f gp : Int)
    (m l : Option Int) (hf : f ≠ 0) (hgp : gp ≠ 0) :
    currentGasPriceOrFallback ⟨some ⟨some f, m⟩, l⟩ g = f ∧
    currentGasPriceOrFallback ⟨some ⟨none, m⟩, some gp⟩ g = gp ∧
    currentGasPriceOrFallback ⟨some ⟨some 0, m⟩, some gp⟩ g = gp ∧
    currentGasPriceOrFallback ⟨none, some gp⟩ g = gp ∧
    currentGasPriceOrFallback ⟨none, none⟩ g = Int.floor (g * 1000000000) ∧
    currentGasPriceOrFallback ⟨some ⟨none, m⟩, none⟩ g = Int.floor (g * 1000000000) ∧
    currentGasPriceOrFallback ⟨none, some 0⟩ g = Int.floor (g * 1000000000) ∧
    getSafeGas ⟨some ⟨m, some gp⟩, l⟩ g = some gp ∧
    getSafeGas ⟨some ⟨some f, none⟩, some gp⟩ g = some gp ∧
    getSafeGas ⟨some ⟨some f, none⟩, none⟩ g = jsBigInt (g * 1000000000) ∧
    getSafeGas ⟨none, none⟩ g = jsBigInt (g * 1000000000) := by
  simp [currentGasPriceOrFallback, legacyOrPreferred, gweiToWei,
    getSafeGas, getSafeGasLegacy, hf, hgp]

/-- Witness for the amended C8: both queries fail and the preferred 5 gwei
comes back as 5e9 wei; a truthy dynamic estimate of 7 wins over everything
in currentGasPriceOrFallback; getSafeGas returns the legacy 9 even with
the dynamic estimate 7 present. -/
theorem fee_oracle_resolution_witness :
    currentGasPriceOrFallback ⟨none, none⟩ 5 = 5000000000 ∧
    currentGasPriceOrFallback ⟨some ⟨some 7, none⟩, none⟩ 5 = 7 ∧
    getSafeGas ⟨some ⟨some 7, some 9⟩, none⟩ 5 = some 9 := by
  have h := fee_oracle_resolution 5 7 9 (some 7) none (by decide) (by decide)
  exact ⟨h.2.2.2.2.1.trans (by norm_num), h.1, h.2.2.2.2.2.2.2.1⟩

/-- Counterexample for C9: the rescue-bot.js Transfer handler emits a
rescue trigger (and, when idle, starts an engine run) even for a Transfer
whose destination is not the vault. -/
theorem transfer_filter_counterexample :
    lowerAscii ("0xdead") ≠ lowerAscii ("0xVault") ∧
    onTransferRescueBot ("0xsender") ("0xdead") 5 = some ("Transfer event") ∧
    (orchStep ⟨false, none⟩ (OrchEvent.trigger ("Transfer event"))).2 = 1 := by
  refine ⟨by decide, rfl, rfl⟩

/-- Claim C9 (amended): the event-delta watchers (part_002, part_005)
ignore every Transfer whose destination is not the vault, while the basic
watcher in rescue-bot.js triggers a rescue for every Transfer event
regardless of destination. -/
theorem transfer_event_filter (vaultAddress fromAddr toAddr : String)
    (value : Int) (h : lowerAscii toAddr ≠ lowerAscii vaultAddress) :
    onTransferEventDelta vaultAddress fromAddr toAddr value
      = TransferAction.ignored ∧
    onTransferMain vaultAddress fromAddr toAddr value = TransferAction.ignored ∧
    onTransferRescueBot fromAddr toAddr value = some ("Transfer event") := by
  refine ⟨?_, ?_, rfl⟩
  · simp [onTransferEventDelta, h]
  · simp [onTransferMain, h]

/-- Witness for the amended C9 at concrete addresses. -/
theorem transfer_event_filter_witness :
    onTransferEventDelta ("0xVault") ("0xsender") ("0xdead") 5
      = TransferAction.ignored ∧
    onTransferMain ("0xVault") ("0xsender") ("0xdead") 5 = TransferAction.ignored ∧
    onTransferRescueBot ("0xsender") ("0xdead") 5 = some ("Transfer event") :=
  transfer_event_filter ("0xVault") ("0xsender") ("0xdead") 5 (by decide)

/-- Claim C10: the patrol loop processes every iteration even when the
maxRedeem query throws: an error is caught inside the iteration (logged as
caughtError), the loop sleeps the fixed patrol interval afterwards, and no
query error shortens or terminates the loop. -/
theorem patrolLoop_resilient (ms : ℚ) (qs : List (Except Unit Int)) :
    (patrolLoop ms qs).length = qs.length ∧
    (∀ p ∈ patrolLoop ms qs, p.2 = ms) ∧
    ∀ (e : Unit) (qs2 : List (Except Unit Int)),
      patrolLoop ms (Except.error e :: qs2)
        = (PatrolStep.caughtError, ms) :: patrolLoop ms qs2 := by
  refine ⟨?_, ?_, fun e qs2 => rfl⟩
  · induction qs with
    | nil => rfl
    | cons q qs ih => simp [patrolLoop, ih]
  · induction qs with
    | nil => simp [patrolLoop]
    | cons q qs ih =>
        intro p hp
        simp only [patrolLoop, List.mem_cons] at hp
        rcases hp with rfl | hp
        · rfl
        · exact ih p hp

end RescueBot
